/-
Verification development for the RSqueak/spyvm object-memory core
(src/spyvm/model.py, src/spyvm/storage.py, src/spyvm/storage_contexts.py).

The VM is an RPython program built as a 32-bit binary (32-bit Squeak images,
`W_LargePositiveInteger1Word` is an "unsigned 32-bit value", shifts and masks in
model.py are written against a 32-bit machine word).  Accordingly the machine
word is modelled as 32 bits throughout: `intmask` is two's-complement reduction
to 32 bits, `r_uint` is reduction mod 2^32, and `sys.maxint` is 2^31 - 1.

Python's `//` (floor division) is modelled by `Int.ediv` and Python's `%` by
`Int.emod`; for positive divisors these agree with Python's semantics.
-/
import Mathlib

set_option maxRecDepth 4000

/-- `rpython.rlib.rarithmetic.intmask` on the 32-bit build: reduce an unbounded
integer to the signed 32-bit range `[-2^31, 2^31)` (two's complement). -/
def intmask32 (v : Int) : Int := (v + 2 ^ 31) % 2 ^ 32 - 2 ^ 31

/-- `r_uint` on the 32-bit build: reduce to the unsigned range `[0, 2^32)`. -/
def r_uint32 (v : Int) : Int := v % 2 ^ 32

/-- `sys.maxint` on the 32-bit build (also `constants.MAXINT`; constants.py is
not under src/, but its `MAXINT = sys.maxint` is fixed by the 32-bit word). -/
def MAXINT : Int := 2 ^ 31 - 1

/-- The universe of wrapped runtime values (`W_Object` references) that flow
through slots, temporaries and stacks.  `nil` is `space.w_nil`; `smallint`
is a `W_SmallInteger` (model.py:224), `flt` a `W_Float` whose payload is
modelled by its 64-bit pattern (equality of the payload models Python float
equality as used against the strategy tag value), `largePosInt` a
`W_LargePositiveInteger1Word` denoting an unsigned 32-bit value, and
`bytesRef`/`objRef` are references (by object id) to byte objects and other
heap objects. -/
inductive SqVal where
  | nil
  | smallint (v : Int)
  | flt (bits : Int)
  | largePosInt (u : Nat)
  | bytesRef (oid : Nat)
  | objRef (oid : Nat)
deriving DecidableEq

/- ===================================================================
   Storage strategies for W_GenericPointersObject (storage.py).

   The strategy classes in storage.py configure the generic machinery of
   rpython.rlib.rstrategies, which is not part of this repository (not under
   src/).  The behaviour of that machinery is modelled from the spec:
   - AllNilStrategy (storage.py:204-211): "zero-size-allocation representation
     when every field is nil".
   - SmallIntegerOrNilStrategy (storage.py:183-191) and FloatOrNilStrategy
     (storage.py:193-202): "a homogeneous array storing raw values plus one
     reserved sentinel value meaning nil"; the sentinels are `constants.MAXINT`
     and `sys.float_info.max` as declared in storage.py.
   - ListStrategy (storage.py:86-90): heterogeneous array of arbitrary values.
   - Transition protocol (spec section 4.2): on a store whose value violates the
     current strategy's constraint, the factory picks the next-more-general
     strategy in the lattice compatible with the new value (the `generalize`
     lists declared on the strategy classes in storage.py: AllNil generalizes
     to [SmallIntegerOrNil, FloatOrNil, List], the tagged strategies to
     [List]), re-reads every existing slot from the old strategy, writes it
     into the new strategy, then retries the original store.
   - Indexed access out of [0, size) fails with a bounds violation
     (spec section 4.2, failure conditions).
   =================================================================== -/

/-- Strategy tag value of `SmallIntegerOrNilStrategy.unwrapped_tagged_value`
(storage.py:191): `constants.MAXINT`. -/
def SI_TAG : Int := MAXINT

/-- Strategy tag value of `FloatOrNilStrategy` (storage.py:198):
`sys.float_info.max`, modelled by its 64-bit pattern. -/
def FLOAT_TAG : Int := 9218868437227405311

/-- A `W_GenericPointersObject`'s combined `strategy` + `_storage` state
(model.py:849-856): which storage strategy is attached and its backing array. -/
inductive StorageStrategy where
  | allNil (n : Nat)
  | smallIntOrNil (st : List Int)
  | floatOrNil (st : List Int)
  | list (st : List SqVal)
deriving DecidableEq

namespace StorageStrategy

/-- `AbstractStrategy.size` as seen through each concrete strategy: the number
of addressable fields. -/
def ssize : StorageStrategy → Nat
  | .allNil n => n
  | .smallIntOrNil st => st.length
  | .floatOrNil st => st.length
  | .list st => st.length

/-- `_check_can_handle` of each strategy: AllNil handles only nil; a tagged
strategy handles nil and values of its contained type whose unwrapped value is
not the reserved tag; ListStrategy handles everything. -/
def canHandle : StorageStrategy → SqVal → Bool
  | .allNil _, v => v = SqVal.nil
  | .smallIntOrNil _, v =>
    match v with
    | .nil => true
    | .smallint w => w ≠ SI_TAG
    | _ => false
  | .floatOrNil _, v =>
    match v with
    | .nil => true
    | .flt b => b ≠ FLOAT_TAG
    | _ => false
  | .list _, _ => true

/-- `W_GenericPointersObject.fetch` (model.py:915-916) delegated to the current
strategy: AllNil yields nil, a tagged strategy decodes the raw array entry
(the tag reads back as nil), ListStrategy reads the array.  Out-of-bounds
access fails (spec section 4.2). -/
def sfetch : StorageStrategy → Nat → Option SqVal
  | .allNil n, i => if i < n then some SqVal.nil else none
  | .smallIntOrNil st, i =>
    (st[i]?).map (fun w => if w = SI_TAG then SqVal.nil else SqVal.smallint w)
  | .floatOrNil st, i =>
    (st[i]?).map (fun b => if b = FLOAT_TAG then SqVal.nil else SqVal.flt b)
  | .list st, i => st[i]?

/-- `unwrap` for SmallIntegerOrNilStrategy: nil is stored as the tag value
(storage.py:188-191). -/
def unwrapSI : SqVal → Int
  | .smallint w => w
  | _ => SI_TAG

/-- `unwrap` for FloatOrNilStrategy: nil is stored as the tag value
(storage.py:199-202). -/
def unwrapFl : SqVal → Int
  | .flt b => b
  | _ => FLOAT_TAG

/-- The raw slot write performed by a strategy that can handle the value:
AllNil stores nothing (the value is nil), a tagged strategy writes the
unwrapped raw value, ListStrategy writes the wrapped value. -/
def rawStore : StorageStrategy → Nat → SqVal → StorageStrategy
  | .allNil n, _, _ => .allNil n
  | .smallIntOrNil st, i, v => .smallIntOrNil (st.set i (unwrapSI v))
  | .floatOrNil st, i, v => .floatOrNil (st.set i (unwrapFl v))
  | .list st, i, v => .list (st.set i v)

/-- Modelled from the spec: the factory's generalization step (the rstrategies
machinery behind `StrategyFactory`, storage.py:213-236, is not under src/).
It attaches the next-more-general strategy compatible with the incoming value
(following the `generalize` lists declared in storage.py) and re-reads every
existing slot from the old strategy into the new one. -/
def generalized : StorageStrategy → SqVal → StorageStrategy
  | .allNil n, v =>
    if canHandle (.smallIntOrNil []) v then .smallIntOrNil (List.replicate n SI_TAG)
    else if canHandle (.floatOrNil []) v then .floatOrNil (List.replicate n FLOAT_TAG)
    else .list (List.replicate n SqVal.nil)
  | .smallIntOrNil st, _ =>
    .list (st.map (fun w => if w = SI_TAG then SqVal.nil else SqVal.smallint w))
  | .floatOrNil st, _ =>
    .list (st.map (fun b => if b = FLOAT_TAG then SqVal.nil else SqVal.flt b))
  | .list st, _ => .list st

/-- `W_GenericPointersObject.store` (model.py:918-919) delegated to the current
strategy: if the strategy can handle the value it writes in place, otherwise
the factory generalizes and the store is retried on the new strategy.
Out-of-bounds store fails (spec section 4.2). -/
def sstore (s : StorageStrategy) (i : Nat) (v : SqVal) : Option StorageStrategy :=
  if i < ssize s then
    some (if canHandle s v then rawStore s i v else rawStore (generalized s v) i v)
  else none

/-- Position of a strategy in the generalization lattice (spec glossary:
AllNil is most specific, the tagged strategies sit in the middle, the generic
list is most general). -/
def rank : StorageStrategy → Nat
  | .allNil _ => 0
  | .smallIntOrNil _ => 1
  | .floatOrNil _ => 1
  | .list _ => 2

end StorageStrategy

/-- Run a sequence of `store(i, v)` operations on a generic slotted object,
failing if any store fails. -/
def runStores : StorageStrategy → List (Nat × SqVal) → Option StorageStrategy
  | s, [] => some s
  | s, (i, v) :: rest => (s.sstore i v).bind (fun s2 => runStores s2 rest)

/-- The last value stored at index `j` by a sequence of stores, if any. -/
def lastStoreAt : List (Nat × SqVal) → Nat → Option SqVal
  | [], _ => none
  | (i, v) :: rest, j =>
    match lastStoreAt rest j with
    | some w => some w
    | none => if i = j then some v else none

/-- The content a reader observes at index `j` after a sequence of stores into
a fresh object: the last value stored there, or nil if never stored. -/
def lastStore (ops : List (Nat × SqVal)) (j : Nat) : SqVal :=
  (lastStoreAt ops j).getD SqVal.nil

/-- A fresh `W_GenericPointersObject` of the given size:
`W_GenericPointersObject._initialize_storage` (model.py:858-860) asks the
factory for `empty_storage_type`, which is `AllNilStrategy` for a non-weak
object when specialized storage is enabled (storage.py:231-236). -/
def freshGenericObject (n : Nat) : StorageStrategy := .allNil n

/- ===================================================================
   `become` on objects with an explicit identity hash (model.py:332-347)
   and the per-kind `_become` content swaps.

   Modelled universe: the concrete kinds whose `_become` is in src/ and whose
   state is covered by this development.  Each object carries an `oid`
   (its Python object identity, which `become` never changes: existing
   references keep pointing at the same identity and observe the swapped
   content) plus the instance attributes swapped by its `_become`:
   - W_LargePositiveInteger1Word._become (model.py:450-454): value,
     _exposed_size, then the hash (model.py:345-347).
   - W_BytesObject._become (model.py:1131-1137): bytes, c_bytes, _size, then
     w_class (model.py:620-623) and the hash.  (The byte content is modelled
     as a single list; the c_bytes/converted state does not matter for the
     swap, which exchanges both fields wholesale.)
   - W_WordsObject._become (model.py:1241-1246): words, c_words, _size, w_class,
     hash.
   - W_SmallPointersObject._become (model.py:829-839): _size, f1..f4, w_class,
     hash.
   - W_GenericPointersObject._become (model.py:959-970): strategy, _storage,
     w_class, hash.  The singleton storage strategies modelled here report
     `handles_become() = False` (storage.py:61-63), so the shadow branch is
     not taken and the swap is the plain strategy+storage exchange.
   The `hash` attribute holds `UNASSIGNED_HASH` (sys.maxint) until the hash is
   materialized (model.py:313-315).
   =================================================================== -/

/-- A heap object of one of the modelled concrete representation kinds, with
its Python identity (`oid`), its `hash` attribute, and the state its `_become`
exchanges. -/
inductive WObj where
  | largeInt (oid : Nat) (hash : Int) (value : Int) (exposedSize : Nat)
  | bytesObj (oid : Nat) (hash : Int) (wclass : Nat) (bs : List Nat)
  | wordsObj (oid : Nat) (hash : Int) (wclass : Nat) (ws : List Nat)
  | smallPtrs (oid : Nat) (hash : Int) (wclass : Nat) (sz : Nat) (f1 f2 f3 f4 : SqVal)
  | genPtrs (oid : Nat) (hash : Int) (wclass : Nat) (strat : StorageStrategy)
deriving DecidableEq

namespace WObj

/-- The Python object identity. -/
def oid : WObj → Nat
  | .largeInt o _ _ _ => o
  | .bytesObj o _ _ _ => o
  | .wordsObj o _ _ _ => o
  | .smallPtrs o _ _ _ _ _ _ _ => o
  | .genPtrs o _ _ _ => o

/-- The concrete representation kind (the Python `__class__`), as an index. -/
def kind : WObj → Nat
  | .largeInt _ _ _ _ => 0
  | .bytesObj _ _ _ _ => 1
  | .wordsObj _ _ _ _ => 2
  | .smallPtrs _ _ _ _ _ _ _ _ => 3
  | .genPtrs _ _ _ _ => 4

/-- The same object state attached to a different Python identity: this is
what one side of a completed `become` looks like, since `_become` exchanges
every instance attribute (content, class reference and hash) while each
Python object keeps its own identity. -/
def withOid : WObj → Nat → WObj
  | .largeInt _ h v e, o => .largeInt o h v e
  | .bytesObj _ h c bs, o => .bytesObj o h c bs
  | .wordsObj _ h c ws, o => .wordsObj o h c ws
  | .smallPtrs _ h c sz f1 f2 f3 f4, o => .smallPtrs o h c sz f1 f2 f3 f4
  | .genPtrs _ h c s, o => .genPtrs o h c s

/-- `is_same_object` (model.py:121-126 default: Python `is`, i.e. same
identity; overridden for W_BytesObject at model.py:1072-1084, where two byte
objects of equal size compare by content — both the `bytes == other.bytes`
branch and the `has_same_chars` branch amount to equality of the byte
lists). -/
def is_same_object (a b : WObj) : Bool :=
  match a, b with
  | .bytesObj o1 _ _ bs1, .bytesObj o2 _ _ bs2 =>
    if o1 = o2 then true
    else if bs1.length ≠ bs2.length then false
    else bs1 = bs2
  | a, b => a.oid = b.oid ∧ a.kind = b.kind

/-- `W_AbstractObjectWithIdentityHash.become` (model.py:332-338): fails unless
`can_become` holds (same concrete class, model.py:340-343) and the two objects
are not the same object; on success each side's `_become` exchanges the whole
content including the identity hash.  Returns the success flag and the two
objects after the call. -/
def become (a b : WObj) : Bool × WObj × WObj :=
  if a.kind = b.kind then
    if is_same_object a b then (false, a, b)
    else (true, b.withOid a.oid, a.withOid b.oid)
  else (false, a, b)

end WObj

/- ===================================================================
   Contexts (storage_contexts.py).

   A `ContextPartShadow` represents one of two kinds of activation record,
   discriminated by `is_block_context`.  The fields modelled here are the ones
   the verified operations touch: the combined `_temps_and_stack` buffer, the
   `_stack_ptr` (which counts temporaries and live stack elements together),
   the receiver, the method, and for block contexts the home reference
   (`_w_home`), modelled as an index into a heap of contexts.

   Not modelled: closures (`wrapper.BlockClosureWrapper` lives in wrapper.py,
   which is not under src/); all contexts here are closure-less activations,
   so `is_closure_context()` is False and `tempsize_method_context`
   (storage_contexts.py:790-794) is the method's temp count.
   RPython `assert` statements are modelled as failures (`none`), which is
   their behaviour in checked execution.
   =================================================================== -/

/-- The `W_CompiledMethod` header fields used by context construction
(model.py:1280-1314): argument count, temp count and the large-frame flag.
(The header is decoded by `constants.decode_compiled_method_header`, outside
src/; the decoded fields are modelled directly.) -/
structure SqMethod where
  argsize : Nat
  tempsize : Nat
  islarge : Bool
deriving DecidableEq

/-- `W_CompiledMethod.compute_frame_size` (model.py:1380-1384):
`16 + self.islarge * 40 + self.argsize`. -/
def compute_frame_size (m : SqMethod) : Nat :=
  16 + (if m.islarge then 40 else 0) + m.argsize

/-- The instance size of the MethodContext class (its named fields: sender,
pc, stackp, method, closureOrNil, receiver).  It comes from the class shadow
(storage_classes.py, not under src/); it only enters `_w_self_size`, which the
verified operations never consult. -/
def MethodContext_instsize : Nat := 6

/-- The mutable state of a `ContextPartShadow` (storage_contexts.py:27-112)
relevant to the verified operations. -/
structure ContextPartShadow where
  is_block_context : Bool
  w_self_size : Nat
  pc : Int
  temps_and_stack : List SqVal
  stack_ptr : Nat
  w_receiver : SqVal
  w_method : SqMethod
  w_home : Option Nat
deriving DecidableEq

namespace ContextPartShadow

/-- `tempsize` (storage_contexts.py:309-313): 0 for a block context
(storage_contexts.py:588-590), the method's temp count for a closure-less
method context (storage_contexts.py:790-794). -/
def tempsize (c : ContextPartShadow) : Nat :=
  if c.is_block_context then 0 else c.w_method.tempsize

/-- `stack_get` (storage_contexts.py:404-406): read the combined buffer. -/
def stack_get (c : ContextPartShadow) (i : Nat) : Option SqVal :=
  c.temps_and_stack[i]?

/-- `stack_put` (storage_contexts.py:408-411): write the combined buffer
(failing out of bounds, as the RPython list write would). -/
def stack_put (c : ContextPartShadow) (i : Nat) (v : SqVal) : Option ContextPartShadow :=
  if i < c.temps_and_stack.length then
    some { c with temps_and_stack := c.temps_and_stack.set i v }
  else none

/-- `stackdepth` (storage_contexts.py:245-246): returns `_stack_ptr`, the
index just past the last live element of the combined temps+stack buffer. -/
def stackdepth (c : ContextPartShadow) : Nat := c.stack_ptr

/-- `push` (storage_contexts.py:442-447): write at `_stack_ptr`, increment. -/
def push (c : ContextPartShadow) (v : SqVal) : Option ContextPartShadow :=
  (c.stack_put c.stack_ptr v).map (fun c2 => { c2 with stack_ptr := c.stack_ptr + 1 })

/-- `pop` (storage_contexts.py:417-440): decrement `_stack_ptr` and return the
element there.  When `_stack_ptr` is 0 the code selects the receiver as the
result, but the subsequent `assert ptr >= 0` fails on `ptr = -1`, so the call
fails; the popped slot is deliberately not nilled out. -/
def pop (c : ContextPartShadow) : Option (SqVal × ContextPartShadow) :=
  if c.stack_ptr = 0 then none
  else
    (c.stack_get (c.stack_ptr - 1)).map
      (fun ret => (ret, { c with stack_ptr := c.stack_ptr - 1 }))

/-- `gettemp_method_context` (storage_contexts.py:817-818). -/
def gettemp_method_context (c : ContextPartShadow) (i : Nat) : Option SqVal :=
  c.stack_get i

/-- `settemp_method_context` (storage_contexts.py:820-821). -/
def settemp_method_context (c : ContextPartShadow) (i : Nat) (v : SqVal) :
    Option ContextPartShadow :=
  c.stack_put i v

/-- `stacksize` (storage_contexts.py:382-383): `stackend() - stackstart()`;
for a block context `stackstart` is `BLKCTX_STACK_START = 6` and `stackend`
is `_w_self_size`. -/
def stacksize (c : ContextPartShadow) : Nat := c.w_self_size - 6

/-- `full_stacksize` (storage_contexts.py:385-395): a method context's frame
is sized by `compute_frame_size`; a block context uses `stacksize`. -/
def full_stacksize (c : ContextPartShadow) : Nat :=
  if !c.is_block_context then compute_frame_size c.w_method else c.stacksize

/-- `init_temps_and_stack` (storage_contexts.py:397-402): allocate the
combined buffer filled with nil and point `_stack_ptr` just past the
temporaries. -/
def init_temps_and_stack (c : ContextPartShadow) : ContextPartShadow :=
  { c with
    temps_and_stack := List.replicate c.full_stacksize SqVal.nil
    stack_ptr := c.tempsize }

end ContextPartShadow

/-- The argument-copying loop of `initialize_temps`
(storage_contexts.py:707-710): `settemp(i, arguments[i])` for each argument in
order (the closure branch, storage_contexts.py:711-717, is not taken for the
closure-less activations modelled here). -/
def copyArgsToTemps (c : ContextPartShadow) (i : Nat) :
    List SqVal → Option ContextPartShadow
  | [] => some c
  | a :: rest =>
    (c.settemp_method_context i a).bind (fun c2 => copyArgsToTemps c2 (i + 1) rest)

/-- `ContextPartShadow.build_method_context` (storage_contexts.py:690-704)
for a closure-less activation: size the frame from the method, initialize the
temps+stack buffer, and copy the arguments into the first temp slots. -/
def build_method_context (m : SqMethod) (receiver : SqVal) (args : List SqVal) :
    Option ContextPartShadow :=
  let size := compute_frame_size m + MethodContext_instsize
  let c0 : ContextPartShadow :=
    { is_block_context := false
      w_self_size := size
      pc := 0
      temps_and_stack := []
      stack_ptr := 0
      w_receiver := receiver
      w_method := m
      w_home := none }
  copyArgsToTemps c0.init_temps_and_stack 0 args

/-- `gettemp` dispatch (storage_contexts.py:341-345) over a heap of contexts:
a block context delegates to its home (`gettemp_block_context`,
storage_contexts.py:608-609, via `s_home_block_context`,
storage_contexts.py:582-583), a method context reads its own buffer.  The
fuel bounds the home-chain length. -/
def gettempHeap : Nat → List ContextPartShadow → Nat → Nat → Option SqVal
  | 0, _, _, _ => none
  | fuel + 1, heap, cid, k =>
    match heap[cid]? with
    | none => none
    | some c =>
      if c.is_block_context then
        match c.w_home with
        | none => none
        | some hid => gettempHeap fuel heap hid k
      else c.stack_get k

/-- `settemp` dispatch (storage_contexts.py:347-351) over a heap of contexts:
a block context delegates the write to its home (`settemp_block_context`,
storage_contexts.py:611-612), a method context writes its own buffer
(`settemp_method_context`, storage_contexts.py:820-821). -/
def settempHeap : Nat → List ContextPartShadow → Nat → Nat → SqVal →
    Option (List ContextPartShadow)
  | 0, _, _, _, _ => none
  | fuel + 1, heap, cid, k, v =>
    match heap[cid]? with
    | none => none
    | some c =>
      if c.is_block_context then
        match c.w_home with
        | none => none
        | some hid => settempHeap fuel heap hid k v
      else
        (c.stack_put k v).map (fun c2 => heap.set cid c2)

/- ===================================================================
   Indexed access and bounds (claim C7 sources).
   =================================================================== -/

/-- `rpython.rlib.rarithmetic.int_between(low, x, high)`: `low <= x < high`. -/
def int_between (low x high : Int) : Bool := low ≤ x && x < high

/-- The fields of a `W_SmallPointersObject` (model.py:765-785): at most four
inline fields `f1..f4` plus the declared `_size`. -/
structure SmallPtrsObj where
  sz : Nat
  f1 : SqVal
  f2 : SqVal
  f3 : SqVal
  f4 : SqVal
deriving DecidableEq

/-- `W_SmallPointersObject.fetch` (model.py:805-812): raise IndexError unless
`int_between(0, index0, size())`, then select the field (indices at 4 and
above raise even when `size()` allows them). -/
def W_SmallPointersObject_fetch (o : SmallPtrsObj) (index0 : Int) : Option SqVal :=
  if !int_between 0 index0 o.sz then none
  else if index0 = 0 then some o.f1
  else if index0 = 1 then some o.f2
  else if index0 = 2 then some o.f3
  else if index0 = 3 then some o.f4
  else none

/-- `W_SmallPointersObject.store` (model.py:814-821): same bounds discipline
as `fetch`, updating the selected field. -/
def W_SmallPointersObject_store (o : SmallPtrsObj) (index0 : Int) (v : SqVal) :
    Option SmallPtrsObj :=
  if !int_between 0 index0 o.sz then none
  else if index0 = 0 then some { o with f1 := v }
  else if index0 = 1 then some { o with f2 := v }
  else if index0 = 2 then some { o with f3 := v }
  else if index0 = 3 then some { o with f4 := v }
  else none

/-- The state of a `W_BytesObject` (model.py:979-990): the Python identity,
the mutable byte list (`None` once converted to the C layout), the raw
`c_bytes` buffer contents, and the declared `_size`. -/
structure BytesObjR where
  oid : Nat
  bytes : Option (List Nat)
  c_bytes : List Nat
  sz : Nat
deriving DecidableEq

/-- Well-formedness of a byte object: the active backing array has exactly
`_size` entries (this is maintained by the constructor, `fillin` and
`convert_to_c_layout`). -/
def bytes_wf (o : BytesObjR) : Prop :=
  (∀ l, o.bytes = some l → l.length = o.sz) ∧ (o.bytes = none → o.c_bytes.length = o.sz)

/-- `W_BytesObject.getchar` (model.py:1007-1013): after conversion to the C
layout the size is checked explicitly; otherwise the RPython list read fails
beyond the end of `bytes`. -/
def W_BytesObject_getchar (o : BytesObjR) (n0 : Nat) : Option Nat :=
  match o.bytes with
  | none => if o.sz ≤ n0 then none else o.c_bytes[n0]?
  | some bs => bs[n0]?

/-- The state of a `W_LargePositiveInteger1Word` (model.py:349-357): the
word as an `intmask`ed signed value and the exposed byte length. -/
structure LargeIntObj where
  value : Int
  exposed : Nat
deriving DecidableEq

/-- `W_LargePositiveInteger1Word.at0` (model.py:426-429): shift the word right
by `index0 * 8` (Python arithmetic shift, i.e. floor division by the power of
two) and mask the low byte.  There is no bounds check. -/
def W_LargePositiveInteger1Word_at0 (o : LargeIntObj) (index0 : Nat) : Int :=
  (o.value.ediv (2 ^ (8 * index0))) % 256

/-- `W_LargePositiveInteger1Word.atput0` (model.py:431-439): raise IndexError
when `index0 >= size()`, assert the byte fits in 8 bits, then splice the byte
into the word at `skew = index0 * 8` using `r_uint` masks and store the
`intmask`ed result. -/
def W_LargePositiveInteger1Word_atput0 (o : LargeIntObj) (index0 : Nat) (byte : Int) :
    Option LargeIntObj :=
  if o.exposed ≤ index0 then none
  else if 255 < byte then none
  else
    let skew := 8 * index0
    let mask : Nat := 2 ^ 32 - 1 - (255 * 2 ^ skew) % 2 ^ 32
    let uval : Nat := (o.value % 2 ^ 32).toNat
    let ubyte : Nat := (byte * 2 ^ skew % 2 ^ 32).toNat
    some { o with value := intmask32 (((uval &&& mask) ||| ubyte : Nat) : Int) }

/-- `W_WordsObject.getword` (model.py:1177-1182): the bounds are enforced by
`assert self.size() > n >= 0` (a failure in checked execution); reads go to
`words` or, after conversion, to `c_words`. -/
def W_WordsObject_getword (words : Option (List Nat)) (c_words : List Nat)
    (sz : Nat) (n : Int) : Option Nat :=
  if 0 ≤ n && n < (sz : Int) then
    match words with
    | some ws => ws[n.toNat]?
    | none => c_words[n.toNat]?
  else none

/- ===================================================================
   Identity hash (claim C8 source: model.py:307-327).
   =================================================================== -/

/-- `W_AbstractObjectWithIdentityHash.UNASSIGNED_HASH = sys.maxint`
(model.py:314). -/
def UNASSIGNED_HASH : Int := MAXINT

/-- `W_AbstractObjectWithIdentityHash.gethash` (model.py:323-327): if the
`hash` attribute still holds `UNASSIGNED_HASH`, draw a 32-bit value from the
private random stream, store `intmask(draw) // 2` and return it; otherwise
return the stored hash.  The argument `rand` is the next `genrand32()` draw
(an unsigned 32-bit value); the result is the pair (returned hash, stored
hash after the call). -/
def gethash (storedHash : Int) (rand : Nat) : Int × Int :=
  if storedHash = UNASSIGNED_HASH then
    let h := (intmask32 ((rand : Nat) : Int)).ediv 2
    (h, h)
  else (storedHash, storedHash)

/- ===================================================================
   SmallInteger left shift (claim C9 sources: model.py:244-257, 386-394).
   =================================================================== -/

/-- Modelled from the spec: `space.wrap_positive_32bit_int` lives in
objspace.py, which is not under src/.  The spec (section 4.1) says a
left-shift staying "within an unsigned 32-bit positive range returns a
promoted positive-large-integer result", so the `intmask`ed argument is
reinterpreted as an unsigned 32-bit value and wrapped as a positive large
integer. -/
def wrap_positive_32bit_int (v : Int) : SqVal :=
  SqVal.largePosInt ((v % 2 ^ 32).toNat)

/-- `W_SmallInteger.lshift` (model.py:244-257), called with `shift > 0`:
compute `upperbound = intmask(r_uint(-1) >> shift)`; receivers in
`[0, upperbound]` are shifted and wrapped via `wrap_positive_32bit_int`;
otherwise the shift is checked against the native signed range (`ovfcheck`)
and either wrapped as a plain small integer or fails with
`PrimitiveFailedError` (`none`). -/
def W_SmallInteger_lshift (x : Int) (shift : Nat) : Option SqVal :=
  let upperbound : Int := intmask32 (((2 ^ 32 - 1) >>> shift : Nat) : Int)
  if 0 ≤ x && x ≤ upperbound then
    some (wrap_positive_32bit_int (intmask32 (x * 2 ^ shift)))
  else if -(2 ^ 31) ≤ x * 2 ^ shift && x * 2 ^ shift < 2 ^ 31 then
    some (SqVal.smallint (x * 2 ^ shift))
  else none

/-- `W_LargePositiveInteger1Word.lshift` (model.py:386-394), called with
`shift > 0`: same upper-bound test as the small-integer case, but any
receiver outside `[0, upperbound]` fails immediately. -/
def W_LargePositiveInteger1Word_lshift (x : Int) (shift : Nat) : Option SqVal :=
  let upperbound : Int := intmask32 (((2 ^ 32 - 1) >>> shift : Nat) : Int)
  if 0 ≤ x && x ≤ upperbound then
    some (wrap_positive_32bit_int (intmask32 (x * 2 ^ shift)))
  else none

/- ===================================================================
   Byte-object identity (claim C10 source: model.py:1072-1091).
   =================================================================== -/

/-- `W_BytesObject.has_same_chars` (model.py:1086-1091): compare the first
`size` characters through `getchar`. -/
def has_same_chars (a b : BytesObjR) (size : Nat) : Bool :=
  (List.range size).all
    (fun i => W_BytesObject_getchar a i = W_BytesObject_getchar b i)

/-- `W_BytesObject.is_same_object` (model.py:1072-1084): Python identity
short-circuits to true; otherwise objects of different size are different,
and objects of equal size compare by content (large unconverted objects by
list equality, the rest character by character). -/
def W_BytesObject_is_same_object (a b : BytesObjR) : Bool :=
  if a.oid = b.oid then true
  else if a.sz ≠ b.sz then false
  else if 256 < a.sz && a.bytes.isSome && b.bytes.isSome then a.bytes = b.bytes
  else has_same_chars a b a.sz

/- ===================================================================
   Concrete scenario objects used by the claim theorems below.
   =================================================================== -/

/-- The claim C4 scenario, built exactly as the code builds it: a method with
2 arguments (and therefore temp count 2; its computed frame size is 18, not
10 — `compute_frame_size` is `16 + islarge * 40 + argsize`), activated with
arguments `[3, 4]`. -/
def c4_ctx : Option ContextPartShadow :=
  build_method_context ⟨2, 2, false⟩ (SqVal.objRef 99)
    [SqVal.smallint 3, SqVal.smallint 4]

/-- The stack depth the scenario context reports after `push(7)` then `pop()`. -/
def c4_depth_after : Option Nat :=
  (c4_ctx.bind (fun c => (c.push (SqVal.smallint 7)).bind ContextPartShadow.pop)).map
    (fun p => p.2.stackdepth)

/-- The scenario context itself: a freshly activated 2-argument method context,
whose operand stack is empty (`_stack_ptr` sits right after the temporaries
3 and 4) and whose receiver is `objRef 99`. -/
def c5_ctx : ContextPartShadow :=
  c4_ctx.getD ⟨false, 0, 0, [], 0, SqVal.nil, ⟨0, 0, false⟩, none⟩

/-- A concrete closure-less method context used as a block's home: three temp
slots in a three-slot buffer. -/
def c6_home : ContextPartShadow :=
  ⟨false, 24, 0, [SqVal.nil, SqVal.nil, SqVal.nil], 3, SqVal.objRef 1,
    ⟨0, 3, false⟩, none⟩

/-- A concrete block context whose home is heap slot 0. -/
def c6_block : ContextPartShadow :=
  ⟨true, 10, 0, [SqVal.nil], 0, SqVal.nil, ⟨0, 0, false⟩, some 0⟩

/-- The two-context heap for the C6 witness: home at index 0, block at 1. -/
def c6_heap : List ContextPartShadow := [c6_home, c6_block]

/-- The single 1-word large positive integer of the C7 counterexample:
word value 1, exposed size 4. -/
def c7_largeint : LargeIntObj := ⟨1, 4⟩

/- ===================================================================
   Helper lemmas about the storage-strategy model.
   =================================================================== -/

namespace StorageStrategy

theorem ssize_rawStore (s : StorageStrategy) (i : Nat) (v : SqVal) :
    (rawStore s i v).ssize = s.ssize := by
  cases s <;> simp [rawStore, ssize]

theorem ssize_generalized (s : StorageStrategy) (v : SqVal) :
    (generalized s v).ssize = s.ssize := by
  cases s with
  | allNil n =>
    simp only [generalized]
    split_ifs <;> simp [ssize]
  | smallIntOrNil st => simp [generalized, ssize]
  | floatOrNil st => simp [generalized, ssize]
  | list st => simp [generalized, ssize]

theorem canHandle_generalized (s : StorageStrategy) (v : SqVal) :
    canHandle (generalized s v) v = true := by
  cases s with
  | allNil n =>
    by_cases h1 : canHandle (.smallIntOrNil []) v = true
    · have h1n : canHandle (.smallIntOrNil (List.replicate n SI_TAG)) v = true := by
        cases v <;> simpa [canHandle] using h1
      simp only [generalized]
      rw [if_pos h1]
      exact h1n
    · by_cases h2 : canHandle (.floatOrNil []) v = true
      · have h2n : canHandle (.floatOrNil (List.replicate n FLOAT_TAG)) v = true := by
          cases v <;> simpa [canHandle] using h2
        simp only [generalized]
        rw [if_neg h1, if_pos h2]
        exact h2n
      · simp only [generalized]
        rw [if_neg h1, if_neg h2]
        simp [canHandle]
  | smallIntOrNil st => simp [generalized, canHandle]
  | floatOrNil st => simp [generalized, canHandle]
  | list st => simp [generalized, canHandle]

theorem sfetch_rawStore_self (s : StorageStrategy) (i : Nat) (v : SqVal)
    (hch : canHandle s v = true) (hi : i < s.ssize) :
    (rawStore s i v).sfetch i = some v := by
  cases s with
  | allNil n =>
    have hv : v = SqVal.nil := by simpa [canHandle] using hch
    subst hv
    simpa [rawStore, sfetch, ssize] using hi
  | smallIntOrNil st =>
    simp only [ssize] at hi
    cases v with
    | nil =>
      simp [rawStore, sfetch, unwrapSI, List.getElem?_set_self (by simpa using hi)]
    | smallint w =>
      have hw : w ≠ SI_TAG := by simpa [canHandle] using hch
      simp [rawStore, sfetch, unwrapSI, List.getElem?_set_self (by simpa using hi), hw]
    | flt b => simp [canHandle] at hch
    | largePosInt u => simp [canHandle] at hch
    | bytesRef o => simp [canHandle] at hch
    | objRef o => simp [canHandle] at hch
  | floatOrNil st =>
    simp only [ssize] at hi
    cases v with
    | nil =>
      simp [rawStore, sfetch, unwrapFl, List.getElem?_set_self (by simpa using hi)]
    | flt b =>
      have hb : b ≠ FLOAT_TAG := by simpa [canHandle] using hch
      simp [rawStore, sfetch, unwrapFl, List.getElem?_set_self (by simpa using hi), hb]
    | smallint w => simp [canHandle] at hch
    | largePosInt u => simp [canHandle] at hch
    | bytesRef o => simp [canHandle] at hch
    | objRef o => simp [canHandle] at hch
  | list st =>
    simp only [ssize] at hi
    simp [rawStore, sfetch, List.getElem?_set_self (by simpa using hi)]

theorem sfetch_rawStore_ne (s : StorageStrategy) (i j : Nat) (v : SqVal)
    (hij : i ≠ j) : (rawStore s i v).sfetch j = s.sfetch j := by
  cases s <;> simp [rawStore, sfetch, List.getElem?_set_ne hij]

theorem sfetch_generalized (s : StorageStrategy) (v : SqVal) (j : Nat) :
    (generalized s v).sfetch j = s.sfetch j := by
  cases s with
  | allNil n =>
    simp only [generalized]
    split_ifs <;> by_cases hj : j < n <;>
      simp [sfetch, List.getElem?_replicate, hj]
  | smallIntOrNil st =>
    simp only [generalized, sfetch, List.getElem?_map]
  | floatOrNil st =>
    simp only [generalized, sfetch, List.getElem?_map]
  | list st => simp [generalized]

theorem sstore_inv (s : StorageStrategy) (i : Nat) (v : SqVal) (s2 : StorageStrategy)
    (h : s.sstore i v = some s2) :
    i < s.ssize ∧
      s2 = (if canHandle s v then rawStore s i v else rawStore (generalized s v) i v) := by
  unfold sstore at h
  split at h
  · next hi => exact ⟨hi, (Option.some.inj h).symm⟩
  · exact absurd h (by simp)

theorem sstore_eq_some (s : StorageStrategy) (i : Nat) (v : SqVal) (hi : i < s.ssize) :
    ∃ s2, s.sstore i v = some s2 := by
  unfold sstore
  rw [if_pos hi]
  exact ⟨_, rfl⟩

theorem ssize_sstore (s : StorageStrategy) (i : Nat) (v : SqVal) (s2 : StorageStrategy)
    (h : s.sstore i v = some s2) : s2.ssize = s.ssize := by
  obtain ⟨hi, hs2⟩ := sstore_inv s i v s2 h
  subst hs2
  split
  · exact ssize_rawStore s i v
  · rw [ssize_rawStore, ssize_generalized]

theorem sfetch_sstore_self (s : StorageStrategy) (i : Nat) (v : SqVal)
    (s2 : StorageStrategy) (h : s.sstore i v = some s2) : s2.sfetch i = some v := by
  obtain ⟨hi, hs2⟩ := sstore_inv s i v s2 h
  subst hs2
  split
  · next hch => exact sfetch_rawStore_self s i v hch hi
  · next hch =>
    exact sfetch_rawStore_self (generalized s v) i v (canHandle_generalized s v)
      (by rw [ssize_generalized]; exact hi)

theorem sfetch_sstore_ne (s : StorageStrategy) (i j : Nat) (v : SqVal)
    (s2 : StorageStrategy) (h : s.sstore i v = some s2) (hij : i ≠ j) :
    s2.sfetch j = s.sfetch j := by
  obtain ⟨hi, hs2⟩ := sstore_inv s i v s2 h
  subst hs2
  split
  · exact sfetch_rawStore_ne s i j v hij
  · rw [sfetch_rawStore_ne (generalized s v) i j v hij, sfetch_generalized]

theorem rank_generalized (s : StorageStrategy) (v : SqVal) :
    s.rank ≤ (generalized s v).rank := by
  cases s with
  | allNil n =>
    simp only [generalized]
    split_ifs <;> simp [rank]
  | smallIntOrNil st => simp [generalized, rank]
  | floatOrNil st => simp [generalized, rank]
  | list st => simp [generalized, rank]

theorem rank_rawStore (s : StorageStrategy) (i : Nat) (v : SqVal) :
    (rawStore s i v).rank = s.rank := by
  cases s <;> simp [rawStore, rank]

theorem rank_sstore (s : StorageStrategy) (i : Nat) (v : SqVal) (s2 : StorageStrategy)
    (h : s.sstore i v = some s2) : s.rank ≤ s2.rank := by
  obtain ⟨hi, hs2⟩ := sstore_inv s i v s2 h
  subst hs2
  split
  · rw [rank_rawStore]
  · rw [rank_rawStore]
    exact rank_generalized s v

end StorageStrategy

open StorageStrategy in
theorem runStores_spec (ops : List (Nat × SqVal)) (s : StorageStrategy)
    (hops : ∀ p ∈ ops, p.1 < s.ssize) :
    ∃ s2, runStores s ops = some s2 ∧ s2.ssize = s.ssize ∧
      ∀ j, j < s.ssize →
        (∀ w, lastStoreAt ops j = some w → s2.sfetch j = some w) ∧
        (lastStoreAt ops j = none → s2.sfetch j = s.sfetch j) := by
  induction ops generalizing s with
  | nil =>
    refine ⟨s, rfl, rfl, ?_⟩
    intro j hj
    exact ⟨fun w hw => by simp [lastStoreAt] at hw, fun _ => rfl⟩
  | cons p rest ih =>
    obtain ⟨i, v⟩ := p
    have hi : i < s.ssize := hops (i, v) (List.mem_cons_self _ _)
    obtain ⟨s1, hs1⟩ := sstore_eq_some s i v hi
    have hsz1 : s1.ssize = s.ssize := ssize_sstore s i v s1 hs1
    have hops1 : ∀ p ∈ rest, p.1 < s1.ssize := by
      intro p hp
      rw [hsz1]
      exact hops p (List.mem_cons_of_mem _ hp)
    obtain ⟨s2, h2, hsz2, hfetch⟩ := ih s1 hops1
    refine ⟨s2, by simp [runStores, hs1, h2], by rw [hsz2, hsz1], ?_⟩
    intro j hj
    obtain ⟨hsome, hnone⟩ := hfetch j (by rw [hsz1]; exact hj)
    constructor
    · intro w hw
      simp only [lastStoreAt] at hw
      cases hlast : lastStoreAt rest j with
      | some w2 =>
        rw [hlast] at hw
        exact hsome w (by rw [← hw]; exact hlast)
      | none =>
        rw [hlast] at hw
        by_cases hij : i = j
        · subst hij
          simp only [if_pos rfl] at hw
          injection hw with hw
          subst hw
          rw [hnone hlast]
          exact sfetch_sstore_self s i v s1 hs1
        · simp [hij] at hw
    · intro hnon
      simp only [lastStoreAt] at hnon
      cases hlast : lastStoreAt rest j with
      | some w2 => rw [hlast] at hnon; exact absurd hnon (by simp)
      | none =>
        rw [hlast] at hnon
        have hij : i ≠ j := by
          intro hij
          rw [if_pos hij] at hnon
          exact absurd hnon (by simp)
        rw [hnone hlast]
        exact sfetch_sstore_ne s i j v s1 hs1 hij

/- ===================================================================
   Claim theorems.
   =================================================================== -/

/-- C1: Strategy transparency: for every fresh generic slotted object of size
`n` and every finite sequence of `store(i, v)` operations with all indices in
`[0, n)`, a subsequent `fetch(i)` returns exactly the last value stored at
index `i` (or nil if index `i` was never stored), regardless of which
storage-strategy generalizations occurred during the sequence. -/
theorem C1_strategy_transparency (n : Nat) (ops : List (Nat × SqVal))
    (hops : ∀ p ∈ ops, p.1 < n) (j : Nat) (hj : j < n) :
    ∃ s2, runStores (freshGenericObject n) ops = some s2 ∧
      s2.sfetch j = some (lastStore ops j) := by
  obtain ⟨s2, hrun, hsz, hfetch⟩ :=
    runStores_spec ops (freshGenericObject n)
      (by simpa [freshGenericObject, StorageStrategy.ssize] using hops)
  obtain ⟨hsome, hnone⟩ :=
    hfetch j (by simpa [freshGenericObject, StorageStrategy.ssize] using hj)
  refine ⟨s2, hrun, ?_⟩
  unfold lastStore
  cases h : lastStoreAt ops j with
  | some w => simpa using hsome w h
  | none => simpa [freshGenericObject, StorageStrategy.sfetch, hj] using hnone h

/-- Witness for C1 at the spec's concrete scenario shape: size 3, a small
integer stored at 0 then overwritten by a byte-string reference (forcing
AllNil → SmallIntegerOrNil → List generalizations), nil stored at 2. -/
theorem C1_strategy_transparency_witness :
    ∃ s2, runStores (freshGenericObject 3)
        [(0, SqVal.smallint 5), (0, SqVal.bytesRef 7), (2, SqVal.nil)] = some s2 ∧
      s2.sfetch 0 = some (SqVal.bytesRef 7) := by
  simpa [lastStore, lastStoreAt] using
    C1_strategy_transparency 3
      [(0, SqVal.smallint 5), (0, SqVal.bytesRef 7), (2, SqVal.nil)]
      (by decide) 0 (by decide)

/-- C3: Generalization monotonicity: along any successful sequence of stores,
the strategy attached to a generic slotted object only moves upward in the
generalization lattice (AllNil, then the tagged strategies, then the generic
list); no store ever switches the object back to a strictly more specific
strategy. -/
theorem C3_generalization_monotonic (s s2 : StorageStrategy)
    (ops : List (Nat × SqVal)) (h : runStores s ops = some s2) :
    s.rank ≤ s2.rank := by
  induction ops generalizing s with
  | nil =>
    simp only [runStores, Option.some.injEq] at h
    exact h ▸ le_refl _
  | cons p rest ih =>
    obtain ⟨i, v⟩ := p
    unfold runStores at h
    cases hs1 : s.sstore i v with
    | none => rw [hs1] at h; exact absurd h (by simp)
    | some s1 =>
      rw [hs1] at h
      simp only [Option.some_bind] at h
      exact le_trans (StorageStrategy.rank_sstore s i v s1 hs1) (ih s1 h)

/-- Witness for C3: storing one small integer into a fresh size-2 object
generalizes AllNil to SmallIntegerOrNil, a step upward in the lattice. -/
theorem C3_generalization_monotonic_witness :
    StorageStrategy.rank (.allNil 2) ≤ StorageStrategy.rank (.smallIntOrNil [1, SI_TAG]) :=
  C3_generalization_monotonic (.allNil 2) (.smallIntOrNil [1, SI_TAG])
    [(0, SqVal.smallint 1)] (by decide)

/-- C2: Become swap: whenever `A.become(B)` succeeds, `A` afterwards carries
exactly `B`'s former content, class reference and identity hash (attached to
`A`'s unchanged Python identity) and vice versa; and `become` between two
objects of different concrete representation kinds returns false and leaves
both objects unchanged. -/
theorem C2_become_swap (a b : WObj) :
    ((WObj.become a b).1 = true →
      (WObj.become a b).2.1 = b.withOid a.oid ∧
      (WObj.become a b).2.2 = a.withOid b.oid) ∧
    (a.kind ≠ b.kind → WObj.become a b = (false, a, b)) := by
  constructor
  · intro hsucc
    unfold WObj.become at hsucc ⊢
    split_ifs at hsucc ⊢ with h1 h2
    all_goals first
      | exact ⟨rfl, rfl⟩
      | exact absurd hsucc (by simp)
  · intro hkind
    unfold WObj.become
    rw [if_neg hkind]

/-- Witness for C2 at the spec's concrete become scenario: two 1-word large
positive integers holding 4294967295 (stored as `intmask`ed -1) and 1 swap
their values and hashes, and become against a byte object fails and changes
nothing. -/
theorem C2_become_swap_witness :
    ((WObj.become (.largeInt 0 77 (-1) 4) (.largeInt 1 88 1 4)).2.1 =
        WObj.withOid (.largeInt 1 88 1 4) (WObj.oid (.largeInt 0 77 (-1) 4)) ∧
      (WObj.become (.largeInt 0 77 (-1) 4) (.largeInt 1 88 1 4)).2.2 =
        WObj.withOid (.largeInt 0 77 (-1) 4) (WObj.oid (.largeInt 1 88 1 4))) ∧
    WObj.become (.largeInt 0 77 (-1) 4) (.bytesObj 2 5 9 [1, 2]) =
      (false, .largeInt 0 77 (-1) 4, .bytesObj 2 5 9 [1, 2]) :=
  ⟨(C2_become_swap (.largeInt 0 77 (-1) 4) (.largeInt 1 88 1 4)).1 (by decide),
   (C2_become_swap (.largeInt 0 77 (-1) 4) (.bytesObj 2 5 9 [1, 2])).2 (by decide)⟩

/-- Counterexample to C4: in the scenario the claim describes, `stackdepth()`
after `push(7)`; `pop()` is 2 (the method's temp count — `stackdepth` returns
`_stack_ptr`, which counts the temporaries), not 0 as the claim states.  (The
claim's "frame size 10" is also unsatisfiable: a 2-argument method's computed
frame size is 18 or 58.) -/
theorem C4_counterexample : c4_depth_after = some 2 ∧ some 2 ≠ some (0 : Nat) :=
  ⟨by decide, by decide⟩

/-- C4 (amended): no method with 2 arguments has frame size 10 (the computed
frame size is `16 + islarge * 40 + 2`); for a 2-argument method with temp
count 2 and a normal frame, activated with `[3, 4]`: `gettemp(0) = 3`,
`gettemp(1) = 4`, after `push(7)` a `pop()` returns 7, and `stackdepth()`
then returns 2 — the temp count — rather than 0. -/
theorem C4_method_context_scenario :
    (∀ m : SqMethod, m.argsize = 2 → compute_frame_size m ≠ 10) ∧
    (∃ c, c4_ctx = some c ∧
      c.gettemp_method_context 0 = some (SqVal.smallint 3) ∧
      c.gettemp_method_context 1 = some (SqVal.smallint 4) ∧
      (c.push (SqVal.smallint 7)).bind
          (fun c1 => (c1.pop).map Prod.fst) = some (SqVal.smallint 7)) ∧
    c4_depth_after = some 2 := by
  refine ⟨?_, ?_, by decide⟩
  · intro m hm
    unfold compute_frame_size
    rw [hm]
    split <;> omega
  · refine ⟨(c4_ctx.getD ⟨false, 0, 0, [], 0, SqVal.nil, ⟨0, 0, false⟩, none⟩), ?_, ?_, ?_, ?_⟩ <;> decide

/-- Witness for C4 (amended): the frame-size clause instantiated at the
scenario method itself. -/
theorem C4_method_context_scenario_witness :
    compute_frame_size ⟨2, 2, false⟩ ≠ 10 :=
  C4_method_context_scenario.1 ⟨2, 2, false⟩ rfl

/-- Counterexample to C5: the freshly activated 2-argument method context has
an empty operand stack but two live temporaries; `pop()` returns the topmost
temporary (4), not the context's receiver (`objRef 99`). -/
theorem C5_counterexample :
    (c5_ctx.pop).map Prod.fst = some (SqVal.smallint 4) ∧
    c5_ctx.w_receiver = SqVal.objRef 99 ∧
    SqVal.smallint 4 ≠ SqVal.objRef 99 :=
  ⟨by decide, by decide, by decide⟩

/-- C5 (amended): `pop()` on a context whose operand stack is empty but whose
temp count is positive returns the topmost temporary and moves `_stack_ptr`
down into the temp region; a following `push(v)` then `pop()` still yields
`v` (overwriting that temporary rather than leaving the temps intact).  The
receiver fallback is computed only when the combined temps+stack pointer is
0, and on that path the subsequent `assert ptr >= 0` fails, so the call
fails rather than returning the receiver. -/
theorem C5_pop_empty_stack (c : ContextPartShadow) (v : SqVal)
    (hempty : c.stack_ptr = c.tempsize) (hpos : 0 < c.tempsize)
    (hlen : c.tempsize ≤ c.temps_and_stack.length) :
    (∃ w c1, c.stack_get (c.tempsize - 1) = some w ∧ c.pop = some (w, c1) ∧
      ∃ c2, c1.push v = some c2 ∧ (c2.pop).map Prod.fst = some v) ∧
    (∀ d : ContextPartShadow, d.stack_ptr = 0 → d.pop = none) := by
  constructor
  · have hidx : c.tempsize - 1 < c.temps_and_stack.length := by omega
    obtain ⟨w, hw⟩ : ∃ w, c.stack_get (c.tempsize - 1) = some w :=
      ⟨_, List.getElem?_eq_getElem hidx⟩
    refine ⟨w, { c with stack_ptr := c.tempsize - 1 }, hw, ?_, ?_⟩
    · unfold ContextPartShadow.pop
      rw [if_neg (by omega), hempty, hw]
      rfl
    · have hidx2 : c.tempsize - 1 < c.temps_and_stack.length := hidx
      refine ⟨{ c with temps_and_stack := c.temps_and_stack.set (c.tempsize - 1) v,
                       stack_ptr := c.tempsize - 1 + 1 }, ?_, ?_⟩
      · unfold ContextPartShadow.push ContextPartShadow.stack_put
        simp only []
        rw [if_pos hidx2]
        rfl
      · unfold ContextPartShadow.pop
        rw [if_neg (by simp)]
        unfold ContextPartShadow.stack_get
        dsimp only
        simp only [Nat.add_sub_cancel]
        rw [List.getElem?_set_self (by simpa using hidx2)]
        rfl
  · intro d hd
    unfold ContextPartShadow.pop
    rw [if_pos hd]

/-- Witness for C5 (amended) at the concrete scenario context: pop yields the
topmost temporary 4, and push(9); pop() yields 9. -/
theorem C5_pop_empty_stack_witness :
    (∃ w c1, c5_ctx.stack_get (c5_ctx.tempsize - 1) = some w ∧
      c5_ctx.pop = some (w, c1) ∧
      ∃ c2, c1.push (SqVal.smallint 9) = some c2 ∧
        (c2.pop).map Prod.fst = some (SqVal.smallint 9)) ∧
    (∀ d : ContextPartShadow, d.stack_ptr = 0 → d.pop = none) :=
  C5_pop_empty_stack c5_ctx (SqVal.smallint 9) (by decide) (by decide) (by decide)

/-- C6: Block/home temp aliasing: writing value `v` to temp slot `k` through a
block context whose home is the method context `H` updates `H`'s own buffer,
so reading temp slot `k` directly on `H` afterwards yields `v` — blocks have
no private copy of the temporaries. -/
theorem C6_block_temp_aliasing (heap : List ContextPartShadow) (bid hid k : Nat)
    (v : SqVal) (blk H : ContextPartShadow)
    (hb : heap[bid]? = some blk) (hblk : blk.is_block_context = true)
    (hhome : blk.w_home = some hid) (hH : heap[hid]? = some H)
    (hHm : H.is_block_context = false) (hk : k < H.temps_and_stack.length) :
    ∃ heap2, settempHeap 2 heap bid k v = some heap2 ∧
      gettempHeap 1 heap2 hid k = some v := by
  have hput : H.stack_put k v =
      some { H with temps_and_stack := H.temps_and_stack.set k v } := by
    unfold ContextPartShadow.stack_put
    rw [if_pos hk]
  have hhid : hid < heap.length := by
    by_contra hc
    rw [List.getElem?_eq_none (by omega)] at hH
    exact absurd hH (by simp)
  refine ⟨heap.set hid { H with temps_and_stack := H.temps_and_stack.set k v }, ?_, ?_⟩
  · rw [show (2 : Nat) = 1 + 1 from rfl]
    unfold settempHeap
    rw [hb]
    simp only [hblk, if_true]
    rw [hhome]
    rw [show (1 : Nat) = 0 + 1 from rfl]
    unfold settempHeap
    rw [hH]
    simp only [hHm]
    rw [hput]
    simp [hHm]
  · rw [show (1 : Nat) = 0 + 1 from rfl]
    unfold gettempHeap
    rw [List.getElem?_set_self hhid]
    simp only [hHm]
    simp [ContextPartShadow.stack_get, List.getElem?_set_self (by simpa using hk)]

/-- Witness for C6: in the concrete two-context heap, writing 42 to temp slot
1 through the block at index 1 is observable by reading slot 1 directly on
the home context at index 0. -/
theorem C6_block_temp_aliasing_witness :
    ∃ heap2, settempHeap 2 c6_heap 1 1 (SqVal.smallint 42) = some heap2 ∧
      gettempHeap 1 heap2 0 1 = some (SqVal.smallint 42) :=
  C6_block_temp_aliasing c6_heap 1 0 1 (SqVal.smallint 42) c6_block c6_home
    (by decide) (by decide) (by decide) (by decide) (by decide) (by decide)

/- ===================================================================
   Arithmetic helper lemmas for the 32-bit machine-word model.
   =================================================================== -/

theorem intmask32_eq_self {v : Int} (h1 : -(2 ^ 31) ≤ v) (h2 : v < 2 ^ 31) :
    intmask32 v = v := by
  unfold intmask32
  omega

theorem emod_intmask32 (v : Int) : intmask32 v % 2 ^ 32 = v % 2 ^ 32 := by
  unfold intmask32
  omega

theorem upperbound_le (s : Nat) (hs : 0 < s) : ((2 ^ 32 - 1) >>> s) ≤ 2 ^ 31 - 1 := by
  rw [Nat.shiftRight_eq_div_pow]
  have h2 : (2 : Nat) ^ 1 ≤ 2 ^ s := Nat.pow_le_pow_right (by norm_num) hs
  calc (2 ^ 32 - 1) / 2 ^ s ≤ (2 ^ 32 - 1) / 2 ^ 1 :=
        Nat.div_le_div_left h2 (by norm_num)
    _ = 2 ^ 31 - 1 := by norm_num

theorem upperbound_iff (s : Nat) (x : Int) (hx : 0 ≤ x) :
    (x ≤ (((2 ^ 32 - 1) >>> s : Nat) : Int)) ↔ x * 2 ^ s < 2 ^ 32 := by
  rw [Nat.shiftRight_eq_div_pow]
  set q : Nat := (2 ^ 32 - 1) / 2 ^ s with hq
  have hEpos : (0 : Int) < 2 ^ s := by positivity
  have hq1 : (q : Int) * 2 ^ s ≤ 2 ^ 32 - 1 := by
    have h := Nat.div_mul_le_self (2 ^ 32 - 1) (2 ^ s)
    rw [← hq] at h
    have h2 : ((q * 2 ^ s : Nat) : Int) ≤ ((2 ^ 32 - 1 : Nat) : Int) := by exact_mod_cast h
    push_cast at h2
    norm_num at h2 ⊢
    omega
  have hq2 : (2 ^ 32 : Int) ≤ ((q : Int) + 1) * 2 ^ s := by
    have h := (Nat.div_lt_iff_lt_mul (Nat.pos_pow_of_pos s (by norm_num))).mp
      (Nat.lt_succ_self q)
    have h2 : ((2 ^ 32 - 1 : Nat) : Int) < (((q + 1) * 2 ^ s : Nat) : Int) := by exact_mod_cast h
    push_cast at h2
    norm_num at h2 ⊢
    omega
  constructor
  · intro hle
    have := mul_le_mul_of_nonneg_right hle (le_of_lt hEpos)
    omega
  · intro hlt
    by_contra hgt
    have hge : (q : Int) + 1 ≤ x := by omega
    have := mul_le_mul_of_nonneg_right hge (le_of_lt hEpos)
    omega

/-- C9: SmallInteger left shift: for a small-integer receiver `x` and a
positive shift, if the shifted value stays within the unsigned 32-bit positive
range (`0 ≤ x` and `x * 2^shift < 2^32`), the result is the promoted positive
32-bit large-integer value `x * 2^shift` instead of an overflow; if the shift
overflows the native signed range (and is not caught by the positive 32-bit
promotion), the primitive fails. -/
theorem C9_smallint_lshift (x : Int) (s : Nat) (hs : 0 < s) :
    (0 ≤ x → x * 2 ^ s < 2 ^ 32 →
      W_SmallInteger_lshift x s = some (SqVal.largePosInt (x * 2 ^ s).toNat)) ∧
    ((2 ^ 31 ≤ x * 2 ^ s ∨ x * 2 ^ s < -(2 ^ 31)) →
      ¬(0 ≤ x ∧ x * 2 ^ s < 2 ^ 32) →
      W_SmallInteger_lshift x s = none) := by
  have hmask : intmask32 (((2 ^ 32 - 1) >>> s : Nat) : Int) =
      (((2 ^ 32 - 1) >>> s : Nat) : Int) := by
    refine intmask32_eq_self (by have := Int.natCast_nonneg ((2 ^ 32 - 1) >>> s); omega) ?_
    have h := upperbound_le s hs
    have h2 : (((2 ^ 32 - 1) >>> s : Nat) : Int) ≤ ((2 ^ 31 - 1 : Nat) : Int) := by
      exact_mod_cast h
    push_cast at h2
    omega
  constructor
  · intro hx hlt
    have hle : x ≤ (((2 ^ 32 - 1) >>> s : Nat) : Int) := (upperbound_iff s x hx).mpr hlt
    have hcond : (decide (0 ≤ x) &&
        decide (x ≤ intmask32 (((2 ^ 32 - 1) >>> s : Nat) : Int))) = true := by
      rw [hmask]
      simp only [Bool.and_eq_true, decide_eq_true_eq]
      exact ⟨hx, hle⟩
    unfold W_SmallInteger_lshift
    rw [if_pos hcond]
    unfold wrap_positive_32bit_int
    rw [emod_intmask32, Int.emod_eq_of_lt (mul_nonneg hx (by positivity)) hlt]
  · intro hover hnot
    have hcond : (decide (0 ≤ x) &&
        decide (x ≤ intmask32 (((2 ^ 32 - 1) >>> s : Nat) : Int))) = false := by
      rw [hmask]
      by_cases hx : 0 ≤ x
      · have hnlt : ¬ x * 2 ^ s < 2 ^ 32 := fun hlt => hnot ⟨hx, hlt⟩
        have hnle : ¬ x ≤ (((2 ^ 32 - 1) >>> s : Nat) : Int) :=
          fun hle => hnlt ((upperbound_iff s x hx).mp hle)
        simp only [Bool.and_eq_false_iff, decide_eq_false_iff_not]
        exact Or.inr hnle
      · simp only [Bool.and_eq_false_iff, decide_eq_false_iff_not]
        exact Or.inl hx
    have hcond2 : (decide (-(2 ^ 31) ≤ x * 2 ^ s) && decide (x * 2 ^ s < 2 ^ 31)) = false := by
      simp only [Bool.and_eq_false_iff, decide_eq_false_iff_not]
      rcases hover with h | h
      · exact Or.inr (by omega)
      · exact Or.inl (by omega)
    have hcond' : ¬ ((decide (0 ≤ x) &&
        decide (x ≤ intmask32 (((2 ^ 32 - 1) >>> s : Nat) : Int))) = true) := by
      rw [hcond]
      simp
    have hcond2' : ¬ ((decide (-(2 ^ 31) ≤ x * 2 ^ s) &&
        decide (x * 2 ^ s < 2 ^ 31)) = true) := by
      rw [hcond2]
      simp
    unfold W_SmallInteger_lshift
    rw [if_neg hcond', if_neg hcond2']

/-- Witness for C9: `3 << 30 = 3221225472` is promoted to a positive 32-bit
large integer (it exceeds the signed range but fits the unsigned range), and
`2^30 << 2 = 2^32` fails with the arithmetic-overflow condition. -/
theorem C9_smallint_lshift_witness :
    W_SmallInteger_lshift 3 30 = some (SqVal.largePosInt 3221225472) ∧
    W_SmallInteger_lshift (2 ^ 30) 2 = none := by
  constructor
  · have h := (C9_smallint_lshift 3 30 (by norm_num)).1 (by norm_num) (by norm_num)
    simpa using h
  · exact (C9_smallint_lshift (2 ^ 30) 2 (by norm_num)).2 (Or.inl (by norm_num))
      (by norm_num)

/-- Counterexample to C7: `W_LargePositiveInteger1Word.at0` performs no bounds
check — on the object with value 1 and exposed size 4, reading index 4
(one past the last valid index) returns the byte 0 instead of failing. -/
theorem C7_counterexample :
    c7_largeint.exposed = 4 ∧
    W_LargePositiveInteger1Word_at0 c7_largeint 4 = 0 :=
  ⟨by decide, by decide⟩

/-- C7 (amended): indexed access outside `[0, size)` fails for small slotted
objects (`fetch`/`store`), byte objects (`getchar` at or beyond the size),
word objects (`getword`), and the 1-word large positive integer's `atput0` —
but its `at0` performs no bounds check at all: for every index it returns the
byte `(value >> 8*i) & 0xff` (a value in `[0, 256)`), never an error. -/
theorem C7_indexed_bounds :
    (∀ (o : SmallPtrsObj) (i : Int) (v : SqVal), ¬(0 ≤ i ∧ i < (o.sz : Int)) →
      W_SmallPointersObject_fetch o i = none ∧
      W_SmallPointersObject_store o i v = none) ∧
    (∀ (o : BytesObjR), bytes_wf o → ∀ n0, o.sz ≤ n0 →
      W_BytesObject_getchar o n0 = none) ∧
    (∀ (ws : List Nat) (c_ws : List Nat) (sz : Nat) (n : Int),
      ¬(0 ≤ n ∧ n < (sz : Int)) →
      W_WordsObject_getword (some ws) c_ws sz n = none) ∧
    (∀ (o : LargeIntObj) (i : Nat) (b : Int), o.exposed ≤ i →
      W_LargePositiveInteger1Word_atput0 o i b = none) ∧
    (∀ (o : LargeIntObj) (i : Nat),
      0 ≤ W_LargePositiveInteger1Word_at0 o i ∧
      W_LargePositiveInteger1Word_at0 o i < 256) := by
  refine ⟨?_, ?_, ?_, ?_, ?_⟩
  · intro o i v h
    have hib : int_between 0 i o.sz = false := by
      unfold int_between
      by_cases h1 : (0 : Int) ≤ i
      · have h2 : ¬ i < (o.sz : Int) := fun h2 => h ⟨h1, h2⟩
        simp [h1, h2]
      · simp [h1]
    constructor
    · unfold W_SmallPointersObject_fetch
      rw [hib]
      rfl
    · unfold W_SmallPointersObject_store
      rw [hib]
      rfl
  · intro o hwf n0 hn
    unfold W_BytesObject_getchar
    cases hb : o.bytes with
    | none => rw [if_pos hn]
    | some l =>
      have hl : l.length = o.sz := hwf.1 l hb
      exact List.getElem?_eq_none (by omega)
  · intro ws c_ws sz n h
    unfold W_WordsObject_getword
    have hcond : ¬ ((decide (0 ≤ n) && decide (n < (sz : Int))) = true) := by
      simp only [Bool.and_eq_true, decide_eq_true_eq]
      exact fun hc => h hc
    rw [if_neg hcond]
  · intro o i b h
    unfold W_LargePositiveInteger1Word_atput0
    rw [if_pos h]
  · intro o i
    unfold W_LargePositiveInteger1Word_at0
    exact ⟨Int.emod_nonneg _ (by norm_num), Int.emod_lt_of_pos _ (by norm_num)⟩

/-- Witness for C7 (amended), one concrete instance per conjunct. -/
theorem C7_indexed_bounds_witness :
    (W_SmallPointersObject_fetch ⟨2, SqVal.nil, SqVal.nil, SqVal.nil, SqVal.nil⟩ (-1) = none ∧
      W_SmallPointersObject_store ⟨2, SqVal.nil, SqVal.nil, SqVal.nil, SqVal.nil⟩ (-1)
        SqVal.nil = none) ∧
    W_BytesObject_getchar ⟨0, some [7, 8], [], 2⟩ 2 = none ∧
    W_WordsObject_getword (some [5]) [] 1 1 = none ∧
    W_LargePositiveInteger1Word_atput0 ⟨1, 4⟩ 4 0 = none ∧
    (0 ≤ W_LargePositiveInteger1Word_at0 ⟨1, 4⟩ 4 ∧
      W_LargePositiveInteger1Word_at0 ⟨1, 4⟩ 4 < 256) :=
  ⟨C7_indexed_bounds.1 ⟨2, SqVal.nil, SqVal.nil, SqVal.nil, SqVal.nil⟩ (-1) SqVal.nil
      (by decide),
   C7_indexed_bounds.2.1 ⟨0, some [7, 8], [], 2⟩ (by constructor <;> simp) 2 (by decide),
   C7_indexed_bounds.2.2.1 [5] [] 1 1 (by decide),
   C7_indexed_bounds.2.2.2.1 ⟨1, 4⟩ 4 0 (by decide),
   C7_indexed_bounds.2.2.2.2 ⟨1, 4⟩ 4⟩

/-- C8 evaluation at the failing input: on the 32-bit build, when the private
random stream's next 32-bit draw is `0x80000000`, the first `gethash()`
assigns and returns `-(2^30)` — a negative value, contradicting the documented
31-bit (non-negative, below `2^31`) contract — and that negative value is then
stable (later calls return it unchanged).  For draws below `2^31` (e.g. 7) the
assigned hash is the intended non-negative `draw // 2`. -/
theorem C8_gethash_negative_on_32bit :
    gethash UNASSIGNED_HASH (2 ^ 31) = (-(2 ^ 30), -(2 ^ 30)) ∧
    (-(2 ^ 30) : Int) < 0 ∧
    gethash (-(2 ^ 30)) 12345 = (-(2 ^ 30), -(2 ^ 30)) ∧
    gethash UNASSIGNED_HASH 7 = (3, 3) :=
  ⟨by decide, by decide, by decide, by decide⟩

/-- C10: identity comparison on byte objects is content equality: two byte
objects with distinct Python identities but equal size and pairwise equal byte
contents (read through `getchar`, covering both the list-backed and the
converted C-layout backing states) are reported as the same object by
`is_same_object`. -/
theorem C10_bytes_identity (a b : BytesObjR)
    (hwa : bytes_wf a) (hwb : bytes_wf b)
    (hsz : a.sz = b.sz) (hdistinct : a.oid ≠ b.oid)
    (hcontent : ∀ i, i < a.sz → W_BytesObject_getchar a i = W_BytesObject_getchar b i) :
    W_BytesObject_is_same_object a b = true := by
  unfold W_BytesObject_is_same_object
  rw [if_neg hdistinct, if_neg (by omega)]
  by_cases hbig : (decide (256 < a.sz) && a.bytes.isSome && b.bytes.isSome) = true
  · rw [if_pos hbig]
    have hflat := hbig
    simp only [Bool.and_eq_true, decide_eq_true_eq] at hflat
    obtain ⟨⟨hgt, hsa⟩, hsb⟩ := hflat
    obtain ⟨la, ha⟩ := Option.isSome_iff_exists.mp hsa
    obtain ⟨lb, hb⟩ := Option.isSome_iff_exists.mp hsb
    have hla : la.length = a.sz := hwa.1 la ha
    have hlb : lb.length = b.sz := hwb.1 lb hb
    have hlab : la = lb := by
      apply List.ext_getElem?
      intro i
      by_cases hi : i < a.sz
      · have h := hcontent i hi
        simpa [W_BytesObject_getchar, ha, hb] using h
      · rw [List.getElem?_eq_none (by omega), List.getElem?_eq_none (by omega)]
    simp [ha, hb, hlab]
  · rw [if_neg hbig]
    unfold has_same_chars
    rw [List.all_eq_true]
    intro i hi
    have h := hcontent i (List.mem_range.mp hi)
    simp [h]

/-- Witness for C10: a list-backed 3-byte string and a separately allocated
C-layout-converted byte object with the same characters are "the same object"
at the identity interface. -/
theorem C10_bytes_identity_witness :
    W_BytesObject_is_same_object ⟨0, some [1, 2, 3], [], 3⟩ ⟨1, none, [1, 2, 3], 3⟩ = true :=
  C10_bytes_identity ⟨0, some [1, 2, 3], [], 3⟩ ⟨1, none, [1, 2, 3], 3⟩
    ⟨fun l h => by cases h; rfl, fun h => by simp at h⟩
    ⟨fun l h => by simp at h, fun _ => rfl⟩
    (by decide) (by decide) (by decide)
